import Mathlib

/-!
Verification development for the ttgrind tool-grinding editor.

This file gives a shallow embedding of the geometry / toolpath core of the
repository and proves properties of it:

* `ttpathgen.py` : `getPlungePoints` (rough plunge subdivision);
* `arc.py`       : the `Arc` map, its accessors and `Arc.fromAngles`;
* `tttooldef.py` : `TTPointDef.checkGeometry` with `algo.tipLength`;
* `algo.py`      : `pointOnLine`;
* `dim/dimension.py` : the two-point orientation dispatch of `LinearDim`;
* `ttwriter.py`  : `TTWriter.getSimProgram`.

Numbers are embedded exactly: rational arithmetic (`ℚ`) models Python floats
where the code is pure field arithmetic, and real numbers (`ℝ`) are used where
the code calls `tan` or vector normalization (`sqrt`).  Qt primitives used by
the code (`QLineF.intersect`, `QVector2D.normalized`, `QRectF.normalized`,
`QRectF.contains`) are embedded from their Qt semantics.
-/

/-- A 2D point with rational coordinates (`QPointF` in the source). -/
abbrev QPt := ℚ × ℚ

/-- Qt `QLineF::intersect` restricted to the `BoundedIntersection` outcome.

The first segment (`sp1`, `sp2`) plays the role of `self` (in
`ttpathgen.getPlungePoints` that is the vertical probe line `l2`), the second
(`lp1`, `lp2`) the argument line `l1`.  Mirrors the Qt implementation: with
`a = sp2 - sp1`, `b = lp1 - lp2`, `c = sp1 - lp1`, the denominator
`a.y*b.x - a.x*b.y` being zero means no intersection; otherwise the
intersection point is `sp1 + na * a` and the intersection is bounded exactly
when both parameters `na`, `nb` lie in `[0, 1]`.  Returns `some point` for a
bounded intersection, `none` otherwise. -/
def qtIntersectBounded (sp1 sp2 lp1 lp2 : QPt) : Option QPt :=
  let a : QPt := (sp2.1 - sp1.1, sp2.2 - sp1.2)
  let b : QPt := (lp1.1 - lp2.1, lp1.2 - lp2.2)
  let c : QPt := (sp1.1 - lp1.1, sp1.2 - lp1.2)
  let denom := a.2 * b.1 - a.1 * b.2
  if denom = 0 then none
  else
    let na := (b.2 * c.1 - b.1 * c.2) / denom
    let pt : QPt := (sp1.1 + a.1 * na, sp1.2 + a.2 * na)
    if na < 0 ∨ 1 < na then none
    else
      let nb := (a.1 * c.2 - a.2 * c.1) / denom
      if nb < 0 ∨ 1 < nb then none
      else some pt

/-- One candidate profile edge of the inner loop of `getPlungePoints`: the
pair `(a, b)` of consecutive translated elements.  Returns `none` when the
edge is skipped (horizontal shank edge `a.y = b.y = 0`, or vertical edge
`a.x = b.x`) or when the vertical probe line at `z` (from `y = bd` down to
`y = -bd`) has no bounded intersection with it. -/
def edgeHit (bd z : ℚ) (pr : QPt × QPt) : Option QPt :=
  if (pr.1.2 = 0 ∧ pr.2.2 = 0) ∨ pr.1.1 = pr.2.1 then none
  else qtIntersectBounded (z, bd) (z, -bd) pr.1 pr.2

/-- The inner `for a, b in zip(te, te[1:])` loop of `getPlungePoints`: the
first edge (in authoring order) with a bounded intersection wins and the loop
breaks. -/
def firstHit (bd z : ℚ) (te : List QPt) : Option QPt :=
  (te.zip te.tail).findSome? (edgeHit bd z)

/-- The sequence of probe-line Z stations visited by the plunge loop of
`getPlungePoints`, mirroring exactly how the loop threads `z`:
iteration `i` probes at `startZ` when `i = 0` and `startZ` is supplied,
otherwise at the current `z`; then `z` becomes `startZ + zStep * (i + 1)`
(resp. `zStep * (i + 2)` without `startZ`). -/
def plungeStations (startZ : Option ℚ) (zStep : ℚ) : ℕ → ℕ → ℚ → List ℚ
  | 0, _, _ => []
  | k + 1, i, z =>
    (match startZ with
      | some s => if i = 0 then s else z
      | none => z) ::
    plungeStations startZ zStep k (i + 1)
      (match startZ with
        | some s => s + zStep * ((i : ℚ) + 1)
        | none => zStep * ((i : ℚ) + 2))

/-- The outer plunge loop of `getPlungePoints`: at each station append the
first bounded intersection of the probe line with a profile edge, if any. -/
def plungeLoop (bd : ℚ) (te : List QPt) (startZ : Option ℚ) (zStep : ℚ) :
    ℕ → ℕ → ℚ → List QPt
  | 0, _, _ => []
  | k + 1, i, z =>
    let probe : ℚ := match startZ with
      | some s => if i = 0 then s else z
      | none => z
    let z2 : ℚ := match startZ with
      | some s => s + zStep * ((i : ℚ) + 1)
      | none => zStep * ((i : ℚ) + 2)
    match firstHit bd probe te with
    | some p => p :: plungeLoop bd te startZ zStep k (i + 1) z2
    | none => plungeLoop bd te startZ zStep k (i + 1) z2

/-- The effective Z-length to grind: `elements[i][0]`, reduced by `startZ`
when a start position is supplied (`zlen` in `getPlungePoints`). -/
def grindLen (startZ : Option ℚ) (L : ℚ) : ℚ :=
  match startZ with
  | some s => L - s
  | none => L

/-- The number of loop iterations of `getPlungePoints`:
`n - (1 if startZ is None else 0)` clamped to `ℕ` (a negative `range` bound is
an empty loop in Python). -/
def passCount (startZ : Option ℚ) (n : ℤ) : ℕ :=
  (n - (match startZ with | none => 1 | some _ => 0)).toNat

/-- `ttpathgen.getPlungePoints`.  A profile element is embedded as its list of
numeric entries; a bare point is a two-entry list `[x, y]`, an arc descriptor
(`[[ex, ey], [cx, cy], dir]` in `Path2d`) has a different length, which is all
`getPlungePoints` inspects before raising.  Raised exceptions
(`TTPathGenError`, `IndexError`, `ZeroDivisionError`) are embedded as
`Except.error` with the Python message. -/
def getPlungePoints (bd ww wo : ℚ) (elements : List (List ℚ)) (i : ℕ)
    (startZ : Option ℚ) : Except String (List QPt × List QPt) :=
  if ¬ (∀ e ∈ elements, e.length = 2) then
    .error "getPlungePoints() does not currently handle arcs"
  else
    match elements.get? i with
    | none => .error "list index out of range"
    | some ei =>
      let zlen0 := ei.headD 0
      if (match startZ with | some s => decide (zlen0 ≤ s) | none => false) then
        .error "getPlungePoints startZ exceeds last ground element"
      else
        let zlen : ℚ := grindLen startZ zlen0
        if ww * wo = 0 then .error "float division by zero"
        else
          let n : ℤ := ⌈zlen / (ww * wo)⌉
          if n = 0 then .error "float division by zero"
          else
            let zStep := zlen / (n : ℚ)
            let te := elements.map (fun e => ((e.headD 0 : ℚ), bd / 2 - e.getD 1 0))
            let m : ℕ := passCount startZ n
            .ok (plungeLoop bd te startZ zStep m 0 zStep, te)

/-! ## Lemmas about the plunge loop -/

theorem plungeStations_length (startZ : Option ℚ) (zStep : ℚ) :
    ∀ (k i : ℕ) (z : ℚ), (plungeStations startZ zStep k i z).length = k := by
  intro k
  induction k with
  | zero => intro i z; rfl
  | succ k ih => intro i z; simp [plungeStations, ih]

theorem plungeLoop_eq_filterMap (bd : ℚ) (te : List QPt) (startZ : Option ℚ)
    (zStep : ℚ) : ∀ (k i : ℕ) (z : ℚ),
    plungeLoop bd te startZ zStep k i z =
      (plungeStations startZ zStep k i z).filterMap (fun zz => firstHit bd zz te) := by
  intro k
  induction k with
  | zero => intro i z; rfl
  | succ k ih =>
    intro i z
    cases startZ with
    | none =>
      rw [plungeLoop.eq_def, plungeStations.eq_def, List.filterMap_cons]
      cases h : firstHit bd z te with
      | none => simp only [h, ih]
      | some p => simp only [h, ih]
    | some s =>
      rw [plungeLoop.eq_def, plungeStations.eq_def, List.filterMap_cons]
      cases h : firstHit bd (if i = 0 then s else z) te with
      | none => simp only [h, ih]
      | some p => simp only [h, ih]

theorem length_filterMap_of_isSome {α β : Type} (f : α → Option β) :
    ∀ l : List α, (∀ a ∈ l, (f a).isSome) → (l.filterMap f).length = l.length := by
  intro l
  induction l with
  | nil => intro _; rfl
  | cons a l ih =>
    intro h
    rcases Option.isSome_iff_exists.mp (h a (List.mem_cons_self a l)) with ⟨b, hb⟩
    rw [List.filterMap_cons, hb, List.length_cons, List.length_cons,
      ih fun x hx => h x (List.mem_cons_of_mem a hx)]

/-- Helper: a positive rational quotient has a positive (hence nonzero) ceiling. -/
theorem ceil_pos_of_pos {q : ℚ} (h : 0 < q) : 0 < ⌈q⌉ :=
  Int.ceil_pos.mpr h

theorem getPlungePoints_ok (bd ww wo : ℚ) (elements : List (List ℚ)) (i : ℕ)
    (startZ : Option ℚ) (ei : List ℚ) (zlen : ℚ)
    (h2 : ∀ e ∈ elements, e.length = 2)
    (helem : elements.get? i = some ei)
    (hwo : ww * wo ≠ 0)
    (hstart : ∀ s ∈ startZ, s < ei.headD 0)
    (hzlen : zlen = grindLen startZ (ei.headD 0))
    (hn : ⌈zlen / (ww * wo)⌉ ≠ 0) :
    getPlungePoints bd ww wo elements i startZ =
      .ok (plungeLoop bd (elements.map (fun e => ((e.headD 0 : ℚ), bd / 2 - e.getD 1 0)))
            startZ (zlen / (⌈zlen / (ww * wo)⌉ : ℚ))
            (passCount startZ ⌈zlen / (ww * wo)⌉) 0
            (zlen / (⌈zlen / (ww * wo)⌉ : ℚ)),
          elements.map (fun e => ((e.headD 0 : ℚ), bd / 2 - e.getD 1 0))) := by
  subst hzlen
  cases startZ with
  | none =>
    rw [getPlungePoints.eq_def, if_neg (not_not_intro h2), helem]
    dsimp only
    rw [if_neg (by simp), if_neg hwo, if_neg hn]
  | some s =>
    rw [getPlungePoints.eq_def, if_neg (not_not_intro h2), helem]
    dsimp only
    rw [if_neg (by simpa using not_le.mpr (hstart s rfl)), if_neg hwo, if_neg hn]

/-- Helper: `List.findSome?` returns the image of the first element on which
`f` fires, when everything before it yields `none`. -/
theorem findSome?_append_first {α β : Type} (f : α → Option β) :
    ∀ (l1 : List α) (pr : α) (l2 : List α) (p : β),
      (∀ q ∈ l1, f q = none) → f pr = some p →
      (l1 ++ pr :: l2).findSome? f = some p := by
  intro l1
  induction l1 with
  | nil =>
    intro pr l2 p _ hpr
    simp [List.findSome?_cons, hpr]
  | cons a l ih =>
    intro pr l2 p hnone hpr
    have ha : f a = none := hnone a (List.mem_cons_self a l)
    rw [List.cons_append, List.findSome?_cons, ha]
    exact ih pr l2 p (fun q hq => hnone q (List.mem_cons_of_mem a hq)) hpr

/-- C1 (amended): with `startZ = none` the plunge loop visits
`n - 1` probe stations, with `startZ` supplied it visits `n` stations, where
`n = ceil(zlen / (wheelWidth * wheelOverlap))` and `zlen` is the grind length
`elements[i][0]` minus `startZ` when `startZ` is supplied.  The returned list
has one entry per station whose vertical probe line has a bounded intersection
with some profile edge: its length is therefore at most the station count,
with equality when every station's probe hits an edge. -/
theorem getPlungePoints_rough_pass_count (bd ww wo : ℚ)
    (elements : List (List ℚ)) (i : ℕ) (startZ : Option ℚ) (ei : List ℚ)
    (zlen : ℚ)
    (h2 : ∀ e ∈ elements, e.length = 2)
    (helem : elements.get? i = some ei)
    (hwo : 0 < ww * wo)
    (hstart : ∀ s ∈ startZ, s < ei.headD 0)
    (hzlen : zlen = grindLen startZ (ei.headD 0))
    (hpos : 0 < zlen) :
    ∃ pts, getPlungePoints bd ww wo elements i startZ =
        .ok (pts, elements.map fun e => ((e.headD 0 : ℚ), bd / 2 - e.getD 1 0)) ∧
      pts.length ≤ passCount startZ ⌈zlen / (ww * wo)⌉ ∧
      ((∀ z ∈ plungeStations startZ (zlen / (⌈zlen / (ww * wo)⌉ : ℚ))
            (passCount startZ ⌈zlen / (ww * wo)⌉) 0
            (zlen / (⌈zlen / (ww * wo)⌉ : ℚ)),
          (firstHit bd z
            (elements.map fun e => ((e.headD 0 : ℚ), bd / 2 - e.getD 1 0))).isSome) →
        pts.length = passCount startZ ⌈zlen / (ww * wo)⌉) := by
  have hn : ⌈zlen / (ww * wo)⌉ ≠ 0 := (ceil_pos_of_pos (div_pos hpos hwo)).ne'
  refine ⟨_, getPlungePoints_ok bd ww wo elements i startZ ei zlen h2 helem
    hwo.ne' hstart hzlen hn, ?_, ?_⟩
  · rw [plungeLoop_eq_filterMap]
    calc ((plungeStations _ _ _ _ _).filterMap _).length
        ≤ (plungeStations startZ (zlen / (⌈zlen / (ww * wo)⌉ : ℚ))
            (passCount startZ ⌈zlen / (ww * wo)⌉) 0
            (zlen / (⌈zlen / (ww * wo)⌉ : ℚ))).length :=
          List.length_filterMap_le _ _
      _ = _ := plungeStations_length _ _ _ _ _
  · intro hall
    rw [plungeLoop_eq_filterMap, length_filterMap_of_isSome _ _ hall,
      plungeStations_length]

/-- C1 counterexample: the claimed exact counts fail on the code.
First conjunct: a profile whose only edge is the horizontal shank line
(`blankDia = 1`, elements `[[0, 1/2], [1, 1/2]]`, so both translated Y
coordinates are `0` and every edge is skipped): here `L = 1`,
`ww * wo = 1/2`, so `n = 2` and the claim demands `n - 1 = 1` plunge point
with `startZ = None`, but the code returns the empty list.
Second conjunct: with `startZ = 1/2` supplied, `L = elements[1][0] = 1`,
`ww * wo = 3/10`: the claimed count `n = ceil(L / (ww*wo)) = 4` differs from
the code, which subdivides `L - startZ = 1/2` into `ceil((1/2)/(3/10)) = 2`
passes and returns 2 plunge points. -/
theorem getPlungePoints_count_counterexample :
    (getPlungePoints 1 1 (1/2) [[0, 1/2], [1, 1/2]] 1 none =
        .ok ([], [(0, 0), (1, 0)]) ∧
      (⌈(1 : ℚ) / (1 * (1/2))⌉ - 1 : ℤ) = 1) ∧
    (getPlungePoints 1 1 (3/10) [[0, 0], [1, 0]] 1 (some (1/2)) =
        .ok ([(1/2, 1/2), (3/4, 1/2)], [(0, 1/2), (1, 1/2)]) ∧
      (⌈(1 : ℚ) / (1 * (3/10))⌉ : ℤ) = 4) := by
  refine ⟨⟨?_, by norm_num⟩, ⟨?_, by rw [Int.ceil_eq_iff]; norm_num⟩⟩
  · rw [getPlungePoints_ok 1 1 (1/2) [[0, 1/2], [1, 1/2]] 1 none [1, 1/2] 1
      (by norm_num) rfl (by norm_num) (by simp) (by norm_num [grindLen])
      (by norm_num)]
    rw [show (⌈(1 : ℚ) / (1 * (1/2))⌉ : ℤ) = 2 by norm_num]
    norm_num [passCount, plungeLoop, plungeStations, firstHit, edgeHit,
      qtIntersectBounded, List.zip, List.zipWith, List.findSome?]
  · rw [getPlungePoints_ok 1 1 (3/10) [[0, 0], [1, 0]] 1 (some (1/2)) [1, 0]
      (1/2) (by norm_num) rfl (by norm_num) (by norm_num)
      (by norm_num [grindLen]) (by norm_num)]
    rw [show (⌈(1 : ℚ)/2 / (1 * (3/10))⌉ : ℤ) = 2 by rw [Int.ceil_eq_iff]; norm_num]
    norm_num [passCount, plungeLoop, plungeStations, firstHit, edgeHit,
      qtIntersectBounded, List.zip, List.zipWith, List.findSome?]

/-- Witness for C1: a one-edge profile `[[0, 0], [1, 0]]` with `blankDia = 1`,
`ww = 1`, `wo = 1/2`, `startZ = None`: the grind length is `1`, `n = 2`, and
the single probe station hits the translated edge, giving exactly
`n - 1 = 1` plunge point. -/
theorem getPlungePoints_rough_pass_count_witness :
    ∃ pts, getPlungePoints 1 1 (1/2) [[0, 0], [1, 0]] 1 none =
        .ok (pts, [(0, 1/2), (1, 1/2)]) ∧ pts.length = 1 := by
  obtain ⟨pts, hok, _, hlen⟩ :=
    getPlungePoints_rough_pass_count 1 1 (1/2) [[0, 0], [1, 0]] 1 none [1, 0] 1
      (by norm_num) rfl (by norm_num) (by simp) (by norm_num [grindLen])
      (by norm_num)
  rw [show (⌈(1 : ℚ) / (1 * (1/2))⌉ : ℤ) = 2 by norm_num] at hlen
  refine ⟨pts, by simpa using hok, hlen ?_⟩
  norm_num [passCount, plungeStations, firstHit, edgeHit, qtIntersectBounded,
    List.zip, List.zipWith, List.findSome?]

/-- C2: the plunge-point edge search is a first-match policy.  General part:
whenever the list of consecutive translated-element pairs splits as
`l1 ++ pr :: l2` where every earlier pair in `l1` yields no hit (skipped or
no bounded intersection) and `pr` yields the bounded intersection `p`, the
search returns `p` — regardless of what any pair in `l2` would yield.
Concrete part: a profile whose first edge (`y = -1`) and third edge
(`y = -1/2`) both have a bounded intersection with the probe line at `z = 1`
(with `blankDia` so that `bd = 2`); the first edge in authoring order wins
even though the third edge's intersection is closer to the probe start, so
the policy is not nearest-match. -/
theorem firstHit_first_match :
    (∀ (bd z : ℚ) (te : List QPt) (l1 l2 : List (QPt × QPt)) (pr : QPt × QPt)
        (p : QPt),
        te.zip te.tail = l1 ++ pr :: l2 →
        (∀ q ∈ l1, edgeHit bd z q = none) →
        edgeHit bd z pr = some p →
        firstHit bd z te = some p) ∧
    (firstHit 2 1 [(0, -1), (2, -1), (0, -(1/2)), (2, -(1/2))] = some (1, -1) ∧
      edgeHit 2 1 ((0, -(1/2)), (2, -(1/2))) = some (1, -(1/2)) ∧
      ((1, -1) : QPt) ≠ (1, -(1/2))) := by
  constructor
  · intro bd z te l1 l2 pr p hsplit hnone hpr
    rw [firstHit, hsplit]
    exact findSome?_append_first _ l1 pr l2 p hnone hpr
  · refine ⟨?_, ?_, by norm_num⟩
    · norm_num [firstHit, edgeHit, qtIntersectBounded, List.zip, List.zipWith,
        List.findSome?]
    · norm_num [edgeHit, qtIntersectBounded]

/-- Witness for C2: in the profile `[(0, 0), (1, 0), (2, -1)]` the first pair
is the skipped shank edge, so the second pair's bounded intersection with the
probe at `z = 3/2` is returned. -/
theorem firstHit_first_match_witness :
    firstHit 1 (3/2) [(0, 0), (1, 0), (2, -1)] = some (3/2, -(1/2)) :=
  firstHit_first_match.1 1 (3/2) [(0, 0), (1, 0), (2, -1)]
    [((0, 0), (1, 0))] [] ((1, 0), (2, -1)) (3/2, -(1/2))
    rfl (by simp [edgeHit]) (by norm_num [edgeHit, qtIntersectBounded])

/-- C3: any element of the profile list that is not a bare two-entry point
(in particular any `Path2d` arc descriptor `[[ex, ey], [cx, cy], dir]`)
makes `getPlungePoints` raise `TTPathGenError` before producing any plunge
point; arcs are never silently skipped. -/
theorem getPlungePoints_rejects_arcs (bd ww wo : ℚ)
    (elements : List (List ℚ)) (i : ℕ) (startZ : Option ℚ) (e : List ℚ)
    (he : e ∈ elements) (hlen : e.length ≠ 2) :
    getPlungePoints bd ww wo elements i startZ =
      .error "getPlungePoints() does not currently handle arcs" := by
  rw [getPlungePoints.eq_def, if_pos]
  exact fun hall => hlen (hall e he)

/-- Witness for C3: a profile with a three-entry (arc-like) element raises. -/
theorem getPlungePoints_rejects_arcs_witness :
    getPlungePoints 1 1 (1/2) [[0, 0], [3, 4, 5]] 0 none =
      .error "getPlungePoints() does not currently handle arcs" :=
  getPlungePoints_rejects_arcs 1 1 (1/2) [[0, 0], [3, 4, 5]] 0 none [3, 4, 5]
    (by simp) (by simp)

/-! ## The Arc entity (`arc.py`) -/

/-- The internal map `self.m` of an `arc.Arc`: center point, radius, start
angle and signed span angle (degrees). -/
structure ArcState where
  center : QPt
  radius : ℚ
  start : ℚ
  span : ℚ
deriving DecidableEq

/-- The default map of `Arc.__init__`:
`center (0,0), radius 0.5, start 0.0, span 90.0`. -/
def arcDefault : ArcState := ⟨(0, 0), 1/2, 0, 90⟩

/-- A dict passed to `Arc.config`: each key is optional. -/
structure ArcUpdate where
  center : Option QPt
  radius : Option ℚ
  start : Option ℚ
  span : Option ℚ

/-- `self.m.update(m)`: keys present in the update replace stored values. -/
def applyUpdate (a : ArcState) (u : ArcUpdate) : ArcState :=
  ⟨u.center.getD a.center, u.radius.getD a.radius,
    u.start.getD a.start, u.span.getD a.span⟩

/-- `Arc.__init__(m)` with a complete map: raises `ArcException` when the
supplied radius is `≤ 0`, else stores a copy of the map. -/
def Arc.init (m : ArcState) : Except String ArcState :=
  if m.radius ≤ 0 then .error "radius must be > 0.0" else .ok m

/-- `Arc.config(m)`: update the stored map, then raise `ArcException` when
the (updated) stored radius is `≤ 0`. -/
def Arc.config (a : ArcState) (u : ArcUpdate) : Except String ArcState :=
  let m2 := applyUpdate a u
  if m2.radius ≤ 0 then .error "radius must be > 0.0" else .ok m2

/-- The `Arc.centerX` accessor called with an explicit numeric argument:
`if value:` tests Python truthiness, so a zero argument takes the read
branch (returning the stored coordinate, second component) and a nonzero
argument stores it (first component) and returns `None`. -/
def Arc.centerX (a : ArcState) (v : ℚ) : ArcState × Option ℚ :=
  if v = 0 then (a, some a.center.1)
  else (⟨(v, a.center.2), a.radius, a.start, a.span⟩, none)

/-- The `Arc.centerY` accessor called with an explicit numeric argument. -/
def Arc.centerY (a : ArcState) (v : ℚ) : ArcState × Option ℚ :=
  if v = 0 then (a, some a.center.2)
  else (⟨(a.center.1, v), a.radius, a.start, a.span⟩, none)

/-- The `Arc.radius` accessor called with an explicit numeric argument.
Note: the setter branch stores the value without any validation. -/
def Arc.radius (a : ArcState) (v : ℚ) : ArcState × Option ℚ :=
  if v = 0 then (a, some a.radius)
  else (⟨a.center, v, a.start, a.span⟩, none)

/-- The `Arc.start` accessor called with an explicit numeric argument. -/
def Arc.start (a : ArcState) (v : ℚ) : ArcState × Option ℚ :=
  if v = 0 then (a, some a.start)
  else (⟨a.center, a.radius, v, a.span⟩, none)

/-- The `Arc.span` accessor called with an explicit numeric argument. -/
def Arc.span (a : ArcState) (v : ℚ) : ArcState × Option ℚ :=
  if v = 0 then (a, some a.span)
  else (⟨a.center, a.radius, a.start, v⟩, none)

/-- Python `%` with a positive right operand on exact rationals:
`a % b = a - b * floor(a / b)`, the result lying in `[0, b)`. -/
def pymod (a b : ℚ) : ℚ := a - b * ⌊a / b⌋

theorem pymod_nonneg (a : ℚ) : 0 ≤ pymod a 360 := by
  rw [pymod, sub_nonneg]
  calc (360 : ℚ) * ⌊a / 360⌋ ≤ 360 * (a / 360) := by
        have := Int.floor_le (a / 360)
        nlinarith
    _ = a := by ring

theorem pymod_lt (a : ℚ) : pymod a 360 < 360 := by
  rw [pymod, sub_lt_iff_lt_add]
  have h := Int.lt_floor_add_one (a / 360)
  nlinarith [h]

/-- `Arc.fromAngles(a1, a2, radius, cclw)`: build on the default arc, then
`config` with the prescribed radius, start and span.  When `a1 == a2` the
span is a full `±360`; otherwise both angles are reduced with `%= 360.0`
and the span is the (counter-)clockwise difference. -/
def Arc.fromAngles (a1 a2 radius : ℚ) (cclw : Bool) : Except String ArcState :=
  if a1 = a2 then
    Arc.config arcDefault
      ⟨none, some radius, some 0, some (if cclw then 360 else -360)⟩
  else
    let b1 := pymod a1 360
    let b2 := pymod a2 360
    if cclw then
      Arc.config arcDefault
        ⟨none, some radius, some b1, some ((if b2 < b1 then b2 + 360 else b2) - b1)⟩
    else
      Arc.config arcDefault
        ⟨none, some radius, some b1, some (-((if b1 < b2 then b1 + 360 else b1) - b2))⟩

/-- C4 counterexample: the claim fails for angles that are distinct but
congruent modulo 360.  `Arc.fromAngles(0, 360, 1, cclw=True)` takes the
`a1 != a2` branch, both angles reduce to `0`, and the resulting span is `0`,
not positive. -/
theorem fromAngles_counterexample :
    (0 : ℚ) ≠ 360 ∧
      ∃ arc, Arc.fromAngles 0 360 1 true = .ok arc ∧ ¬ 0 < arc.span := by
  refine ⟨by norm_num, ⟨⟨(0, 0), 1, 0, 0⟩, ?_, by norm_num⟩⟩
  norm_num [Arc.fromAngles, Arc.config, applyUpdate, pymod, arcDefault]

/-- C4 (amended): for every radius `r > 0`, `Arc.fromAngles` never raises and
the resulting span satisfies `|span| ≤ 360`; and whenever the two angles are
distinct modulo 360 (the reduced `a1 % 360` and `a2 % 360` differ), the span
is strictly positive for `cclw = True` and strictly negative for
`cclw = False`. -/
theorem fromAngles_span_sign (a1 a2 r : ℚ) (cclw : Bool) (hr : 0 < r) :
    ∃ arc, Arc.fromAngles a1 a2 r cclw = .ok arc ∧
      |arc.span| ≤ 360 ∧
      (pymod a1 360 ≠ pymod a2 360 →
        (cclw = true → 0 < arc.span) ∧ (cclw = false → arc.span < 0)) := by
  have hr' : ¬ r ≤ 0 := not_le.mpr hr
  have h1l := pymod_nonneg a1
  have h1u := pymod_lt a1
  have h2l := pymod_nonneg a2
  have h2u := pymod_lt a2
  by_cases heq : a1 = a2
  · subst heq
    cases cclw with
    | false =>
      refine ⟨⟨(0, 0), r, 0, -360⟩, ?_, by norm_num, fun hne => absurd rfl hne⟩
      simp [Arc.fromAngles, Arc.config, applyUpdate, arcDefault, hr']
    | true =>
      refine ⟨⟨(0, 0), r, 0, 360⟩, ?_, by norm_num, fun hne => absurd rfl hne⟩
      simp [Arc.fromAngles, Arc.config, applyUpdate, arcDefault, hr']
  · cases cclw with
    | true =>
      refine ⟨⟨(0, 0), r, pymod a1 360,
          (if pymod a2 360 < pymod a1 360 then pymod a2 360 + 360
            else pymod a2 360) - pymod a1 360⟩, ?_, ?_, ?_⟩
      · simp [Arc.fromAngles, Arc.config, applyUpdate, arcDefault, heq, hr']
      · rw [abs_le]
        constructor <;> split <;> push_cast <;> nlinarith
      · intro hne
        refine ⟨fun _ => ?_, by simp⟩
        dsimp only
        rcases lt_or_le (pymod a2 360) (pymod a1 360) with h | h
        · rw [if_pos h]; nlinarith
        · rw [if_neg (not_lt.mpr h)]
          have : pymod a1 360 < pymod a2 360 := lt_of_le_of_ne h hne
          nlinarith
    | false =>
      refine ⟨⟨(0, 0), r, pymod a1 360,
          -((if pymod a1 360 < pymod a2 360 then pymod a1 360 + 360
            else pymod a1 360) - pymod a2 360)⟩, ?_, ?_, ?_⟩
      · simp [Arc.fromAngles, Arc.config, applyUpdate, arcDefault, heq, hr']
      · rw [abs_le]
        constructor <;> split <;> push_cast <;> nlinarith
      · intro hne
        refine ⟨by simp, fun _ => ?_⟩
        dsimp only
        rcases lt_or_le (pymod a1 360) (pymod a2 360) with h | h
        · rw [if_pos h]; nlinarith
        · rw [if_neg (not_lt.mpr h)]
          have : pymod a2 360 < pymod a1 360 :=
            lt_of_le_of_ne h (Ne.symm hne)
          nlinarith

/-- Witness for C4: `Arc.fromAngles(0, 90, 1, cclw=True)` succeeds with a
positive span of absolute value at most 360. -/
theorem fromAngles_span_sign_witness :
    ∃ arc, Arc.fromAngles 0 90 1 true = .ok arc ∧
      |arc.span| ≤ 360 ∧ 0 < arc.span := by
  obtain ⟨arc, hok, habs, hsig⟩ := fromAngles_span_sign 0 90 1 true (by norm_num)
  have h90 : ⌊(90 : ℚ) / 360⌋ = 0 := by
    rw [Int.floor_eq_iff]
    norm_num
  refine ⟨arc, hok, habs, (hsig ?_).1 rfl⟩
  norm_num [pymod, h90]

/-- C5 counterexample: the radius accessor used as a setter performs no
validation, so the public call sequence `a = Arc(); a.radius(-1.0)` leaves an
arc whose stored radius is `-1 ≤ 0`. -/
theorem arc_radius_counterexample :
    (Arc.radius arcDefault (-1)).1.radius = -1 ∧
      (Arc.radius arcDefault (-1)).1.radius ≤ 0 := by
  norm_num [Arc.radius, arcDefault]

/-- C5 (amended): `Arc.__init__` and `Arc.config` reject a radius `≤ 0`
(raising `ArcException`), but the `radius` accessor used as a setter stores
any nonzero value unchecked, so `Arc().radius(-1.0)` yields a stored radius
of `-1`. -/
theorem arc_radius_validation :
    (∀ m : ArcState, m.radius ≤ 0 →
      Arc.init m = .error "radius must be > 0.0") ∧
    (∀ (a : ArcState) (u : ArcUpdate), (applyUpdate a u).radius ≤ 0 →
      Arc.config a u = .error "radius must be > 0.0") ∧
    (Arc.radius arcDefault (-1)).1.radius = -1 := by
  refine ⟨fun m hm => ?_, fun a u hu => ?_, ?_⟩
  · rw [Arc.init, if_pos hm]
  · rw [Arc.config]
    simp only [if_pos hu]
  · norm_num [Arc.radius, arcDefault]

/-- Witness for C5: a concrete rejected construction and a concrete rejected
configuration. -/
theorem arc_radius_validation_witness :
    Arc.init ⟨(0, 0), -5, 0, 90⟩ = .error "radius must be > 0.0" ∧
      Arc.config arcDefault ⟨none, some (-2), none, none⟩ =
        .error "radius must be > 0.0" :=
  ⟨arc_radius_validation.1 ⟨(0, 0), -5, 0, 90⟩ (by norm_num),
    arc_radius_validation.2.1 arcDefault ⟨none, some (-2), none, none⟩
      (by norm_num [applyUpdate])⟩

/-- C10: calling any numeric field accessor of `Arc` with the argument `0.0`
takes the falsy branch of `if value:`: nothing is stored, the call returns
the stored value, and the arc state is unchanged. -/
theorem arc_accessor_zero_is_read (a : ArcState) :
    Arc.centerX a 0 = (a, some a.center.1) ∧
    Arc.centerY a 0 = (a, some a.center.2) ∧
    Arc.radius a 0 = (a, some a.radius) ∧
    Arc.start a 0 = (a, some a.start) ∧
    Arc.span a 0 = (a, some a.span) := by
  refine ⟨?_, ?_, ?_, ?_, ?_⟩ <;>
    simp [Arc.centerX, Arc.centerY, Arc.radius, Arc.start, Arc.span]

/-! ## Linear dimension orientation dispatch (`dim/dimension.py`) -/

/-- Which configuration routine `LinearDim._configTwoPoints` dispatches to:
`_configVertical`, `_configHorizontal` or `_configParallel` (the diagonal
dimension). -/
inductive DimOrient where
  | vertical
  | horizontal
  | parallel
deriving DecidableEq

/-- The `force` spec value: the string `'horizontal'` or `'vertical'`
(`None` is represented by `Option.none`). -/
inductive DimForce where
  | horizontal
  | vertical
deriving DecidableEq

/-- `LinearDim._configTwoPoints(p1, p2)` with label position `pos` and the
`force` spec, reduced to the orientation decision.  The diagonal branch
builds `QRectF(p1, p2).normalized()` (left/right the smaller/larger x, top
and bottom the smaller and larger y) and uses `QRectF.contains`
(edge-inclusive).  Raised `LinearDimException`s are `Except.error`. -/
def LinearDim.configTwoPoints (p1 p2 pos : QPt) (force : Option DimForce) :
    Except String DimOrient :=
  if p1 = p2 then .error "ref points are the same"
  else if p1.1 = p2.1 then
    if force = some .horizontal then
      .error "LinearDim cannot be forced horizontal"
    else .ok .vertical
  else if p1.2 = p2.2 then
    if force = some .vertical then
      .error "LinearDim cannot be forced vertical"
    else .ok .horizontal
  else
    let l := min p1.1 p2.1
    let r := max p1.1 p2.1
    let t := min p1.2 p2.2
    let b := max p1.2 p2.2
    let posInRect := l ≤ pos.1 ∧ pos.1 ≤ r ∧ t ≤ pos.2 ∧ pos.2 ≤ b
    if force = some .vertical then .ok .vertical
    else if force = some .horizontal then .ok .horizontal
    else if pos.2 < b ∧ t < pos.2 ∧ ¬ posInRect then .ok .vertical
    else if l < pos.1 ∧ pos.1 < r ∧ ¬ posInRect then .ok .horizontal
    else .ok .parallel

/-- C8 counterexample: with `ref1 = (0,0)` and `ref2 = (0,10)` the reference
points share their x coordinate, so `_configTwoPoints` takes the vertical
branch before any label-position classification; the result is not a
diagonal (parallel) dimension. -/
theorem linearDim_diagonal_counterexample :
    LinearDim.configTwoPoints (0, 0) (0, 10) (5, 5) none ≠
      Except.ok DimOrient.parallel := by
  norm_num [LinearDim.configTwoPoints, Prod.ext_iff]
  simp

/-- C8 (amended): configuring a `LinearDim` with point references `(0,0)` and
`(0,10)`, label position `(5,5)` and no force produces a vertical dimension
(the equal-x test precedes the 9-region diagonal classification). -/
theorem linearDim_vertical_amended :
    LinearDim.configTwoPoints (0, 0) (0, 10) (5, 5) none =
      Except.ok DimOrient.vertical := by
  norm_num [LinearDim.configTwoPoints, Prod.ext_iff]
  simp

/-! ## Real-valued geometry: tipLength / checkGeometry and pointOnLine -/

/-- Python `math.radians`: degrees to radians. -/
noncomputable def radiansR (d : ℝ) : ℝ := d * Real.pi / 180

/-- `algo.tipLength(includedAngle, dia)`: the theoretical tip length
`dia * .5 / tan(radians(includedAngle / 2))`. -/
noncomputable def tipLength (includedAngle dia : ℝ) : ℝ :=
  dia * (1/2) / Real.tan (radiansR (includedAngle / 2))

/-- `TTPointDef.checkGeometry` on the merged spec values `blankDia`,
`blankLength`, `tipAngle`: the conjunction returned by the source
(`bd > 0 and oal > 0 and ta > 0 and ta < 180 and oal > tl`). -/
def TTPointDef.checkGeometry (bd oal ta : ℝ) : Prop :=
  bd > 0 ∧ oal > 0 ∧ ta > 0 ∧ ta < 180 ∧ oal > tipLength ta bd

/-- Helper: `tan(radians(59)) > 1`, since `45° < 59° < 90°` and tangent is
strictly monotone on `(-π/2, π/2)` with `tan(π/4) = 1`. -/
theorem one_lt_tan_radians_59 : 1 < Real.tan (radiansR 59) := by
  have hpi := Real.pi_pos
  have h1 : Real.pi / 4 < radiansR 59 := by
    rw [radiansR]; nlinarith
  have h2 : radiansR 59 < Real.pi / 2 := by
    rw [radiansR]; nlinarith
  calc (1 : ℝ) = Real.tan (Real.pi / 4) := Real.tan_pi_div_four.symm
    _ < Real.tan (radiansR 59) :=
      Real.tan_lt_tan_of_lt_of_lt_pi_div_two (by nlinarith) h2 h1

/-- C6: `TTPointDef.checkGeometry` holds iff the blank diameter and length
are positive, the tip angle lies strictly between 0 and 180 degrees, and the
blank length strictly exceeds the theoretical tip length.  In particular the
default point-tool spec (blankDia 0.5, blankLength 2, tipAngle 118) passes,
changing the tip angle to 200 fails, and setting the blank length exactly
equal to `tipLength(118, 0.5)` fails because the comparison is strict. -/
theorem checkGeometry_spec :
    (∀ bd oal ta : ℝ, TTPointDef.checkGeometry bd oal ta ↔
      (0 < bd ∧ 0 < oal ∧ 0 < ta ∧ ta < 180 ∧ tipLength ta bd < oal)) ∧
    TTPointDef.checkGeometry (1/2) 2 118 ∧
    ¬ TTPointDef.checkGeometry (1/2) 2 200 ∧
    ¬ TTPointDef.checkGeometry (1/2) (tipLength 118 (1/2)) 118 := by
  refine ⟨fun bd oal ta => Iff.rfl, ?_, ?_, ?_⟩
  · have htan := one_lt_tan_radians_59
    have htanpos : (0 : ℝ) < Real.tan (radiansR 59) := by linarith
    refine ⟨by norm_num, by norm_num, by norm_num, by norm_num, ?_⟩
    have h118 : (118 : ℝ) / 2 = 59 := by norm_num
    rw [gt_iff_lt, tipLength, h118, div_lt_iff₀ htanpos]
    nlinarith
  · intro h
    have := h.2.2.2.1
    norm_num at this
  · intro h
    exact absurd h.2.2.2.2 (lt_irrefl _)

/-- `QVector2D.length()` over exact reals. -/
noncomputable def vlength (v : ℝ × ℝ) : ℝ := Real.sqrt (v.1 ^ 2 + v.2 ^ 2)

/-- Qt `QVector2D::normalized()`: a null vector normalizes to the null
vector (no exception), otherwise the components are divided by the length. -/
noncomputable def normalized (v : ℝ × ℝ) : ℝ × ℝ :=
  if vlength v = 0 then (0, 0) else (v.1 / vlength v, v.2 / vlength v)

/-- `QVector2D.dotProduct`. -/
def dotProduct (a b : ℝ × ℝ) : ℝ := a.1 * b.1 + a.2 * b.2

/-- `algo.pointOnLine(p, sp, ep)`: `v = p - sp`, `u = normalized(ep - sp)`,
result `sp + dot(v, u) * u`. -/
noncomputable def pointOnLine (p sp ep : ℝ × ℝ) : ℝ × ℝ :=
  (sp.1 + dotProduct (p.1 - sp.1, p.2 - sp.2)
      (normalized (ep.1 - sp.1, ep.2 - sp.2)) *
      (normalized (ep.1 - sp.1, ep.2 - sp.2)).1,
    sp.2 + dotProduct (p.1 - sp.1, p.2 - sp.2)
      (normalized (ep.1 - sp.1, ep.2 - sp.2)) *
      (normalized (ep.1 - sp.1, ep.2 - sp.2)).2)

/-- C9 counterexample: `pointOnLine` does not raise when `sp == ep`.
`QVector2D::normalized()` maps the null direction to the null vector, so the
call returns `sp` normally: here `pointOnLine((1,2), (3,4), (3,4)) = (3,4)`. -/
theorem pointOnLine_counterexample : pointOnLine (1, 2) (3, 4) (3, 4) = (3, 4) := by
  norm_num [pointOnLine, normalized, vlength, dotProduct, Real.sqrt_zero]

/-- C9 (amended): for `sp == ep` the function silently returns `sp` (the
null direction normalizes to the null vector; nothing is raised), and for
`sp != ep` it returns the projection of `p` onto the infinite line through
`sp` and `ep`, i.e. `sp + (dot(p-sp, d) / dot(d, d)) * d` with `d = ep - sp`. -/
theorem pointOnLine_spec :
    (∀ p sp : ℝ × ℝ, pointOnLine p sp sp = sp) ∧
    (∀ p sp ep : ℝ × ℝ, ep ≠ sp →
      pointOnLine p sp ep =
        (sp.1 + dotProduct (p.1 - sp.1, p.2 - sp.2) (ep.1 - sp.1, ep.2 - sp.2) /
            dotProduct (ep.1 - sp.1, ep.2 - sp.2) (ep.1 - sp.1, ep.2 - sp.2) *
            (ep.1 - sp.1),
          sp.2 + dotProduct (p.1 - sp.1, p.2 - sp.2) (ep.1 - sp.1, ep.2 - sp.2) /
            dotProduct (ep.1 - sp.1, ep.2 - sp.2) (ep.1 - sp.1, ep.2 - sp.2) *
            (ep.2 - sp.2))) := by
  constructor
  · intro p sp
    norm_num [pointOnLine, normalized, vlength, dotProduct, Real.sqrt_zero]
  · intro p sp ep hne
    have hd : ¬ (ep.1 - sp.1 = 0 ∧ ep.2 - sp.2 = 0) := by
      intro ⟨h1, h2⟩
      exact hne (Prod.ext (by linarith) (by linarith))
    have hsum : 0 < (ep.1 - sp.1) ^ 2 + (ep.2 - sp.2) ^ 2 := by
      rcases not_and_or.mp hd with h | h
      · have := sq_nonneg (ep.2 - sp.2)
        have := pow_pos (abs_pos.mpr h) 2
        rw [← sq_abs (ep.1 - sp.1)]
        nlinarith
      · have := sq_nonneg (ep.1 - sp.1)
        have := pow_pos (abs_pos.mpr h) 2
        rw [← sq_abs (ep.2 - sp.2)]
        nlinarith
    have hL : 0 < vlength (ep.1 - sp.1, ep.2 - sp.2) := Real.sqrt_pos.mpr hsum
    have hL2 : vlength (ep.1 - sp.1, ep.2 - sp.2) *
        vlength (ep.1 - sp.1, ep.2 - sp.2) =
        (ep.1 - sp.1) ^ 2 + (ep.2 - sp.2) ^ 2 :=
      Real.mul_self_sqrt hsum.le
    rw [pointOnLine, normalized, if_neg hL.ne']
    have hdd : (ep.1 - sp.1) * (ep.1 - sp.1) + (ep.2 - sp.2) * (ep.2 - sp.2) =
        vlength (ep.1 - sp.1, ep.2 - sp.2) * vlength (ep.1 - sp.1, ep.2 - sp.2) := by
      rw [hL2]; ring
    simp only [dotProduct, Prod.mk.injEq]
    rw [hdd]
    constructor
    · field_simp
    · field_simp

/-- Witness for C9: projecting `(2,3)` onto the x-axis through `(0,0)` and
`(1,0)` gives `(2,0)`. -/
theorem pointOnLine_spec_witness : pointOnLine (2, 3) (0, 0) (1, 0) = (2, 0) := by
  have h := pointOnLine_spec.2 (2, 3) (0, 0) (1, 0) (by norm_num [Prod.ext_iff])
  rw [h]
  norm_num [dotProduct]

/-! ## The simulation reconstructor (`ttwriter.TTWriter.getSimProgram`) -/

/-- A simulation record emitted by `getSimProgram`: a home position, a feed
move (`line`, with feed rate and message), a rapid move (`go`), or a dwell. -/
inductive SimRec where
  | home (x y : ℝ)
  | line (x y f : ℝ) (msg : String)
  | go (x y : ℝ) (msg : String)
  | dwell (t : ℝ)

/-- A parsed MOVE node: the `Id` attribute together with the float
`VARIABLES` values the corresponding `getSimProgram` branch reads.  Flags
such as `RETURN_TO_NEG` are parsed by `float()` and tested for Python
truthiness, so they are kept as reals here. -/
inductive Move where
  | angle (taperDownTo ang taperVelocity : ℝ)
  | axis1 (plungeTo velocityAxis1 returnToNeg negPosition : ℝ)
  | axis2In (moveInTo velocityAxis2 axis2Backlash : ℝ)
  | axis2Out (moveOutTo velocityAxis2 : ℝ)
  | backTaper (taperUpTo taperOutTo taperVelocity : ℝ)
  | ccwRadius
  | cwRadius
  | loopPlunge (rapidDownTo depthOfPlunge velocityAxis1 widthOfPlunge
      plungeDwell numberLoops returnToNeg negPosition : ℝ)
  | rapidIn (abovePart rapidDownTo rapidInTo rapidDownVelocity axis2Backlash : ℝ)
  | off (negHomeAxis1 negHomeAxis2 : ℝ)
  | on

/-- The iteration count of `range(int(d['NUMBER_LOOPS']))`: `int()` truncates
toward zero and `range` of a non-positive bound is empty, which as a natural
number is `floor(x).toNat` for every real `x`. -/
noncomputable def pyLoopCount (x : ℝ) : ℕ := (⌊x⌋).toNat

/-- The body of the `Loop Plunge` branch, iterated `NUMBER_LOOPS` times:
returns the final position and the records appended, in order. -/
noncomputable def loopPlungeAux (br rapidDownTo depth vel width dwl rtn negPos : ℝ) :
    ℕ → ℝ → ℝ → ℝ × ℝ × List SimRec
  | 0, x, y => (x, y, [])
  | k + 1, x, y =>
    let x2 := x + width
    let y2 := br - rapidDownTo
    let y3 := br - depth
    let part := [SimRec.go x2 y "loop position x",
                 SimRec.go x2 y2 "loop down to top of blank",
                 SimRec.line x2 y3 vel "loop plunge"] ++
                (if dwl ≠ 0 then [SimRec.dwell dwl] else [])
    if rtn ≠ 0 then
      let y4 := br + negPos
      let rest := loopPlungeAux br rapidDownTo depth vel width dwl rtn negPos k x2 y4
      (rest.1, rest.2.1, part ++ [SimRec.go x2 y4 "loop return to neg"] ++ rest.2.2)
    else
      let rest := loopPlungeAux br rapidDownTo depth vel width dwl rtn negPos k x2 y3
      (rest.1, rest.2.1, part ++ rest.2.2)

/-- Whether replaying a MOVE cannot hit a Python runtime error: only the
`Angle` branch divides, by `tan(radians(ANGLE))`. -/
def MoveSafe : Move → Prop
  | .angle _ a _ => Real.tan (radiansR a) ≠ 0
  | _ => True

/-- One iteration of `getSimProgram`'s dispatch over the MOVE `Id`: from the
current position `(x, y)` and the output list built so far, the new position
and output list (`Except.error` embeds the raised Python exception).  The
`Off` branch back-fills `outProg[0]['home']` — it requires a nonempty output
whose first record is a `home` record (else `IndexError` / `KeyError`) — and
then appends the final home record. -/
noncomputable def stepMove (br x y : ℝ) (out : List SimRec) :
    Move → Except String (ℝ × ℝ × List SimRec)
  | .angle taperDownTo ang vel =>
    if Real.tan (radiansR ang) = 0 then .error "float division by zero"
    else
      let dy := y - (br - taperDownTo)
      let x2 := x - dy / Real.tan (radiansR ang)
      let y2 := y - dy
      .ok (x2, y2, out ++ [.line x2 y2 vel "angle x and y at feed"])
  | .axis1 plungeTo vel rtn negPos =>
    let y2 := br - plungeTo
    if rtn ≠ 0 then
      let y3 := br + negPos
      .ok (x, y3, out ++ [.line x y2 vel "move y at feed",
        .go x y3 "return to neg"])
    else
      .ok (x, y2, out ++ [.line x y2 vel "move y at feed"])
  | .axis2In moveInTo vel bl =>
    let x2 := moveInTo + bl
    if bl ≠ 0 then
      let x3 := x2 - bl
      .ok (x3, y, out ++ [.line x2 y vel "position x at feed",
        .line x3 y vel "shitty backlash comp"])
    else
      .ok (x2, y, out ++ [.line x2 y vel "position x at feed"])
  | .axis2Out moveOutTo vel =>
    .ok (moveOutTo, y, out ++ [.line moveOutTo y vel "feed x move"])
  | .backTaper upTo outTo vel =>
    .ok (outTo, br - upTo, out ++ [.line outTo (br - upTo) vel "back taper up to"])
  | .ccwRadius => .ok (x, y, out)
  | .cwRadius => .ok (x, y, out)
  | .loopPlunge rapidDownTo depth vel width dwl nloops rtn negPos =>
    let r := loopPlungeAux br rapidDownTo depth vel width dwl rtn negPos
      (pyLoopCount nloops) x y
    .ok (r.1, r.2.1, out ++ r.2.2)
  | .rapidIn abovePart rapidDownTo rapidInTo rapidDownVel bl =>
    let y2 := abovePart + br
    let y4 := br + rapidDownTo
    if bl ≠ 0 then
      .ok (rapidInTo, y4, out ++ [.go (rapidInTo + bl) y2 "rapid in to x and y",
        .go rapidInTo y2 "shitty backlash comp move",
        .line rapidInTo y4 rapidDownVel "move down to top of blank"])
    else
      .ok (rapidInTo + bl, y4, out ++ [.go (rapidInTo + bl) y2 "rapid in to x and y",
        .line (rapidInTo + bl) y4 rapidDownVel "move down to top of blank"])
  | .off negHomeAxis1 negHomeAxis2 =>
    let x2 := -negHomeAxis2
    let y2 := negHomeAxis1 + br
    match out with
    | [] => .error "list index out of range"
    | r :: rest =>
      match r with
      | .home _ _ => .ok (x2, y2, (SimRec.home x2 y2 :: rest) ++ [SimRec.home x2 y2])
      | _ => .error "KeyError"
  | .on => .ok (x, y, out ++ [.home 0 0])

/-- The MOVE loop of `getSimProgram`: `order` starts at `-1`, and a node
whose `Order` attribute is not strictly greater than its predecessor raises
`TTWriterError`. -/
noncomputable def simLoop (br : ℝ) :
    ℤ → ℝ → ℝ → List SimRec → List (ℤ × Move) → Except String (List SimRec)
  | _, _, _, out, [] => .ok out
  | order, x, y, out, (o, mv) :: rest =>
    if o ≤ order then .error "Nodes are out of order, cannot proceed."
    else
      match stepMove br x y out mv with
      | .error e => .error e
      | .ok (x2, y2, out2) => simLoop br o x2 y2 out2 rest

/-- `TTWriter.getSimProgram(blankDia)` on the parsed, ordered MOVE list:
position starts at `(0, 0)`, `br = blankDia / 2`, output starts empty. -/
noncomputable def getSimProgram (blankDia : ℝ) (moves : List (ℤ × Move)) :
    Except String (List SimRec) :=
  simLoop (blankDia / 2) (-1) 0 0 [] moves

/-- A safe MOVE processed on an output list whose first record is a `home`
record succeeds and leaves a `home` record at the head. -/
theorem stepMove_home (br x y a b : ℝ) (rest : List SimRec) (mv : Move)
    (hsafe : MoveSafe mv) :
    ∃ x2 y2 a2 b2 rest2,
      stepMove br x y (.home a b :: rest) mv = .ok (x2, y2, .home a2 b2 :: rest2) := by
  cases mv with
  | angle t ang v =>
    simp only [MoveSafe] at hsafe
    rw [stepMove, if_neg hsafe]
    exact ⟨_, _, a, b, _, rfl⟩
  | axis1 p v r n =>
    by_cases hr : r ≠ 0
    · rw [stepMove, if_pos hr]
      exact ⟨_, _, a, b, _, rfl⟩
    · rw [stepMove, if_neg hr]
      exact ⟨_, _, a, b, _, rfl⟩
  | axis2In m v bl =>
    by_cases hb : bl ≠ 0
    · rw [stepMove, if_pos hb]
      exact ⟨_, _, a, b, _, rfl⟩
    · rw [stepMove, if_neg hb]
      exact ⟨_, _, a, b, _, rfl⟩
  | axis2Out m v => exact ⟨_, _, a, b, _, rfl⟩
  | backTaper u o v => exact ⟨_, _, a, b, _, rfl⟩
  | ccwRadius => exact ⟨_, _, a, b, rest, rfl⟩
  | cwRadius => exact ⟨_, _, a, b, rest, rfl⟩
  | loopPlunge rd d v w dw nl r n => exact ⟨_, _, a, b, _, rfl⟩
  | rapidIn ap rd ri rv bl =>
    by_cases hb : bl ≠ 0
    · rw [stepMove, if_pos hb]
      exact ⟨_, _, a, b, _, rfl⟩
    · rw [stepMove, if_neg hb]
      exact ⟨_, _, a, b, _, rfl⟩
  | off h1 h2 => exact ⟨_, _, _, _, _, rfl⟩
  | «on» => exact ⟨_, _, a, b, _, rfl⟩

/-- Unfolding lemma: one step of the MOVE loop on a cons cell. -/
theorem simLoop_cons (br : ℝ) (order : ℤ) (x y : ℝ) (out : List SimRec)
    (o : ℤ) (mv : Move) (rest : List (ℤ × Move)) :
    simLoop br order x y out ((o, mv) :: rest) =
      if o ≤ order then .error "Nodes are out of order, cannot proceed."
      else match stepMove br x y out mv with
        | .error e => .error e
        | .ok (x2, y2, out2) => simLoop br o x2 y2 out2 rest := rfl

/-- Processing a strictly-ordered tail that ends with an `Off` move, starting
from an output list headed by a `home` record, succeeds and produces an
output whose first and last records are the `Off`-derived home record. -/
theorem simLoop_off_brackets (br : ℝ) :
    ∀ (ms : List (ℤ × Move)) (ord : ℤ) (x y a b : ℝ) (rest : List SimRec)
      (oN : ℤ) (h1 h2 : ℝ),
      List.Chain (fun p q => p < q) ord (ms.map Prod.fst ++ [oN]) →
      (∀ p ∈ ms, MoveSafe p.2) →
      ∃ l, simLoop br ord x y (.home a b :: rest) (ms ++ [(oN, .off h1 h2)]) =
          .ok l ∧
        l.head? = some (.home (-h2) (h1 + br)) ∧
        l.getLast? = some (.home (-h2) (h1 + br)) := by
  intro ms
  induction ms with
  | nil =>
    intro ord x y a b rest oN h1 h2 hord hsafe
    simp only [List.map_nil, List.nil_append] at hord
    have holt : ord < oN := (List.chain_cons.mp hord).1
    rw [List.nil_append, simLoop, if_neg (not_le.mpr holt)]
    refine ⟨(SimRec.home (-h2) (h1 + br) :: rest) ++ [SimRec.home (-h2) (h1 + br)],
      rfl, rfl, List.getLast?_concat _⟩
  | cons hd ms ih =>
    intro ord x y a b rest oN h1 h2 hord hsafe
    obtain ⟨o, mv⟩ := hd
    simp only [List.map_cons] at hord
    have holt : ord < o := (List.chain_cons.mp hord).1
    have hchain := (List.chain_cons.mp hord).2
    have hmv : MoveSafe mv := hsafe (o, mv) (List.mem_cons_self _ _)
    obtain ⟨x2, y2, a2, b2, rest2, hstep⟩ := stepMove_home br x y a b rest mv hmv
    rw [List.cons_append, simLoop, if_neg (not_le.mpr holt), hstep]
    exact ih o x2 y2 a2 b2 rest2 oN h1 h2 hchain
      (fun p hp => hsafe p (List.mem_cons_of_mem _ hp))

/-- C7: for a move list whose `Order` attributes pass the reconstructor's
in-order check (strictly increasing from the initial `-1`), beginning with an
`On` move and ending with an `Off` move, and whose intermediate moves cannot
hit a Python runtime error (`MoveSafe`), `getSimProgram` succeeds; the first
and last output records are home records, the last home has
`x = -NEG_HOME_AXIS2` and `y = NEG_HOME_AXIS1 + blankDia/2` from the `Off`
move, and the first record's home coordinates are back-filled to those same
values. -/
theorem getSimProgram_home_brackets (blankDia h1 h2 : ℝ) (o0 oN : ℤ)
    (ms : List (ℤ × Move))
    (hord : List.Chain (fun p q => p < q) (-1)
      (((o0, Move.on) :: ms ++ [(oN, Move.off h1 h2)]).map Prod.fst))
    (hsafe : ∀ p ∈ ms, MoveSafe p.2) :
    ∃ l, getSimProgram blankDia ((o0, Move.on) :: ms ++ [(oN, Move.off h1 h2)]) =
        .ok l ∧
      l.head? = some (.home (-h2) (h1 + blankDia / 2)) ∧
      l.getLast? = some (.home (-h2) (h1 + blankDia / 2)) := by
  simp only [List.map_cons, List.map_append, List.map_cons, List.map_nil] at hord
  have h0 : (-1 : ℤ) < o0 := (List.chain_cons.mp hord).1
  have hchain := (List.chain_cons.mp hord).2
  rw [getSimProgram, List.cons_append, simLoop_cons, if_neg (not_le.mpr h0)]
  exact simLoop_off_brackets (blankDia / 2) ms o0 0 0 0 0 [] oN h1 h2 hchain hsafe

/-- Witness for C7: the move list
`[On, RapidIn(RAPID_IN_TO=1), Axis1(PLUNGE_TO=0.1), Off(1.5, 0.5)]` with
orders `1, 2, 3, 4` and `blankDia = 1` reconstructs to a program whose first
and last records are the `Off`-derived home `(-0.5, 1.5 + 0.5)`. -/
theorem getSimProgram_home_brackets_witness :
    ∃ l, getSimProgram 1 ((1, Move.on) ::
        [(2, Move.rapidIn (1/100) 0 1 (1/2) (45/1000)),
         (3, Move.axis1 (1/10) (1/20) 1 (1/100))] ++
        [(4, Move.off (3/2) (1/2))]) = .ok l ∧
      l.head? = some (.home (-(1/2)) (3/2 + (1 : ℝ)/2)) ∧
      l.getLast? = some (.home (-(1/2)) (3/2 + (1 : ℝ)/2)) := by
  refine getSimProgram_home_brackets 1 (3/2) (1/2) 1 4
    [(2, Move.rapidIn (1/100) 0 1 (1/2) (45/1000)),
     (3, Move.axis1 (1/10) (1/20) 1 (1/100))] (by norm_num [List.chain_cons]) ?_
  intro p hp
  simp only [List.mem_cons, List.not_mem_nil, or_false] at hp
  rcases hp with h | h <;> subst h <;> trivial
